import Mathlib

/-!
Verification development for the `webviewpanel` surface of ChatClaw
(`src/pkg/webviewpanel/panel_darwin.h`).

The repository ships only the C header declaring the opaque-handle panel
API; the Objective-C implementation behind the declarations is not part of
the sources.  The Panel Handle Manager is therefore modelled from the
specification: panels are records of the attributes the spec lists
(bounding rectangle, z-index, displayed content, zoom factor, visibility
flag), a manager is a table from handles to live panels, and every
declared operation is a step of a single transition function.
-/

namespace Webviewpanel

/-- Modelled from the spec: the displayed content of a panel is "either a
navigable address or an inline content blob — mutually exclusive at any
instant".  The `Option Content` field of a panel makes the exclusivity
structural. -/
inductive Content where
  | url (s : String)
  | html (s : String)
  deriving DecidableEq, Repr

/-- Modelled from the spec (data model, section 3): one embedded panel with
its bounding rectangle `(x, y, w, h)`, stacking order `zindex`, displayed
content, zoom factor and visibility flag.  The zoom factor, a "positive
real" stored in a C `double`, is modelled as a rational so that the exact
round-trip claims are statable. -/
structure Panel where
  x : Int
  y : Int
  w : Int
  h : Int
  zindex : Int
  content : Option Content
  zoom : Rat
  visible : Bool
  deriving DecidableEq, Repr

/-- Modelled from the spec: the default visibility state of a freshly
created panel.  The spec fixes only that it is one consistent boolean for
every fresh panel; a freshly attached native view is displayed, so the
model takes `true`. -/
def defaultVisible : Bool := true

/-- Modelled from the spec: the state of a freshly created panel — the
given initial geometry, z-index tie-broken by insertion order (modelled as
0), no content loaded yet, zoom factor at its default 1.0, and the default
visibility state. -/
def createPanel (x y w h : Int) : Panel :=
  { x := x, y := y, w := w, h := h, zindex := 0, content := none,
    zoom := 1, visible := defaultVisible }

/-- Modelled from the spec: the Panel Handle Manager, "a façade that maps
an opaque handle to a live native web-rendering view instance".  Handles
are indices into the table; a destroyed slot holds `none`. -/
abbrev Manager := List (Option Panel)

/-- Resolve a handle: `some p` exactly when the handle is valid (created
and not yet destroyed). -/
def lookup (m : Manager) (hd : Nat) : Option Panel := m[hd]?.join

/-- Apply `f` to the panel a valid handle refers to; a call on an invalid
handle is undefined behaviour per the spec and modelled as a no-op. -/
def updatePanel (m : Manager) (hd : Nat) (f : Panel → Panel) : Manager :=
  match lookup m hd with
  | some p => List.set m hd (some (f p))
  | none => m

/-- One call of the C API, with the repository's function names.
`wvpanel_create` carries two oracle booleans modelling the spec's two
failure sources: validity of the host window reference and success of
native resource allocation.  Handles are `Nat` indices standing for the
opaque pointers. -/
inductive Op where
  | wvpanel_create (hostValid allocOk : Bool) (x y w h : Int)
  | wvpanel_destroy (p : Nat)
  | wvpanel_set_bounds (p : Nat) (x y w h : Int)
  | wvpanel_set_zindex (p : Nat) (z : Int)
  | wvpanel_set_url (p : Nat) (u : String)
  | wvpanel_set_html (p : Nat) (s : String)
  | wvpanel_eval_js (p : Nat) (js : String)
  | wvpanel_reload (p : Nat)
  | wvpanel_show (p : Nat)
  | wvpanel_hide (p : Nat)
  | wvpanel_is_visible (p : Nat)
  | wvpanel_set_zoom (p : Nat) (f : Rat)
  | wvpanel_get_zoom (p : Nat)
  | wvpanel_focus (p : Nat)
  deriving DecidableEq, Repr

/-- What a call returns across the C ABI: nothing, a possibly-null handle,
a boolean, or a zoom factor.  There is no error constructor — the ABI has
no error channel. -/
inductive Output where
  | unit
  | handle (h : Option Nat)
  | bool (b : Bool)
  | zoom (q : Rat)
  deriving DecidableEq, Repr

/-- Modelled from the spec: one call of the Panel Handle Manager.
`create` attaches a fresh panel and returns its handle, or returns the
null handle when the host window reference is invalid or allocation
fails; `destroy` releases the slot; the setters mutate exactly the
attribute the spec assigns them; `eval_js`, `reload` and `focus` act only
on the native engine and leave the modelled panel state unchanged;
`is_visible` and `get_zoom` read the flags (reads through an invalid
handle are undefined behaviour, modelled by defaults). -/
def step (m : Manager) : Op → Manager × Output
  | .wvpanel_create hostValid allocOk x y w h =>
      if hostValid && allocOk then
        (m ++ [some (createPanel x y w h)], .handle (some m.length))
      else
        (m, .handle none)
  | .wvpanel_destroy p => (List.set m p none, .unit)
  | .wvpanel_set_bounds p x y w h =>
      (updatePanel m p fun q => { q with x := x, y := y, w := w, h := h }, .unit)
  | .wvpanel_set_zindex p z => (updatePanel m p fun q => { q with zindex := z }, .unit)
  | .wvpanel_set_url p u => (updatePanel m p fun q => { q with content := some (.url u) }, .unit)
  | .wvpanel_set_html p s => (updatePanel m p fun q => { q with content := some (.html s) }, .unit)
  | .wvpanel_eval_js _ _ => (m, .unit)
  | .wvpanel_reload _ => (m, .unit)
  | .wvpanel_show p => (updatePanel m p fun q => { q with visible := true }, .unit)
  | .wvpanel_hide p => (updatePanel m p fun q => { q with visible := false }, .unit)
  | .wvpanel_is_visible p => (m, .bool (((lookup m p).map Panel.visible).getD false))
  | .wvpanel_set_zoom p f => (updatePanel m p fun q => { q with zoom := f }, .unit)
  | .wvpanel_get_zoom p => (m, .zoom (((lookup m p).map Panel.zoom).getD 1))
  | .wvpanel_focus _ => (m, .unit)

/-- Run a sequence of calls, keeping only the final manager state. -/
def run (m : Manager) (l : List Op) : Manager :=
  l.foldl (fun s op => (step s op).1) m

/-- The visibility flag `wvpanel_is_visible` reports for a handle. -/
def visibleOf (m : Manager) (hd : Nat) : Bool :=
  ((lookup m hd).map Panel.visible).getD false

/-- The zoom factor `wvpanel_get_zoom` reports for a handle. -/
def zoomOf (m : Manager) (hd : Nat) : Rat :=
  ((lookup m hd).map Panel.zoom).getD 1

/-- The active content source of a handle, when any. -/
def contentOf (m : Manager) (hd : Nat) : Option Content :=
  (lookup m hd).bind Panel.content

/-- The bounding rectangle of a handle, when valid. -/
def boundsOf (m : Manager) (hd : Nat) : Option (Int × Int × Int × Int) :=
  (lookup m hd).map fun p => (p.x, p.y, p.w, p.h)

/-- A valid handle is an index into the table. -/
theorem lookup_lt_length {m : Manager} {hd : Nat} {p : Panel}
    (hval : lookup m hd = some p) : hd < m.length := by
  by_contra hge
  rw [lookup, List.getElem?_len_le (Nat.le_of_not_lt hge)] at hval
  exact Option.noConfusion hval

theorem lookup_set_self {m : Manager} {hd : Nat} (hlt : hd < m.length)
    (x : Option Panel) : lookup (List.set m hd x) hd = x := by
  rw [lookup, List.getElem?_set_eq_of_lt x hlt]; rfl

theorem lookup_set_ne {m : Manager} {q hd : Nat} (hne : q ≠ hd)
    (x : Option Panel) : lookup (List.set m q x) hd = lookup m hd := by
  rw [lookup, lookup, List.getElem?_set_ne hne]

theorem lookup_set_none_self (m : Manager) (hd : Nat) :
    lookup (List.set m hd none) hd = none := by
  rcases Nat.lt_or_ge hd m.length with hlt | hge
  · exact lookup_set_self hlt none
  · rw [List.set_eq_of_length_le hge, lookup, List.getElem?_len_le hge]; rfl

theorem lookup_append_left {m : Manager} {hd : Nat} (hlt : hd < m.length)
    (l : Manager) : lookup (m ++ l) hd = lookup m hd := by
  rw [lookup, lookup, List.getElem?_append_left hlt]

theorem lookup_concat_length (m : Manager) (x : Option Panel) :
    lookup (m ++ [x]) m.length = x := by
  rw [lookup, List.getElem?_concat_length]; rfl

theorem updatePanel_of_none {m : Manager} {hd : Nat} {f : Panel → Panel}
    (hq : lookup m hd = none) : updatePanel m hd f = m := by
  simp only [updatePanel, hq]

theorem updatePanel_of_some {m : Manager} {hd : Nat} {p : Panel}
    {f : Panel → Panel} (hq : lookup m hd = some p) :
    updatePanel m hd f = List.set m hd (some (f p)) := by
  simp only [updatePanel, hq]

theorem lookup_updatePanel_self {m : Manager} {hd : Nat} {p : Panel}
    (hval : lookup m hd = some p) (f : Panel → Panel) :
    lookup (updatePanel m hd f) hd = some (f p) := by
  rw [updatePanel_of_some hval]
  exact lookup_set_self (lookup_lt_length hval) (some (f p))

theorem lookup_updatePanel_ne {q hd : Nat} (m : Manager) (hne : q ≠ hd)
    (f : Panel → Panel) : lookup (updatePanel m q f) hd = lookup m hd := by
  cases hq : lookup m q with
  | none => rw [updatePanel_of_none hq]
  | some r => rw [updatePanel_of_some hq]; exact lookup_set_ne hne (some (f r))

/-- Anything a lookup can return after `updatePanel`: the old panel, or the
updated panel of the touched handle. -/
theorem lookup_updatePanel_cases {m : Manager} {q hd : Nat} {f : Panel → Panel}
    {p : Panel} (hlk : lookup (updatePanel m q f) hd = some p) :
    lookup m hd = some p ∨ ∃ r, lookup m hd = some r ∧ q = hd ∧ p = f r := by
  rcases Decidable.em (q = hd) with heq | hne
  · subst heq
    cases hq : lookup m q with
    | none =>
        rw [updatePanel_of_none hq, hq] at hlk
        exact Option.noConfusion hlk
    | some r =>
        rw [lookup_updatePanel_self hq f] at hlk
        exact Or.inr ⟨r, rfl, rfl, (Option.some.inj hlk).symm⟩
  · rw [lookup_updatePanel_ne m hne f] at hlk
    exact Or.inl hlk

/-- An update whose function is idempotent is idempotent on the manager. -/
theorem updatePanel_idem (m : Manager) (hd : Nat) (f : Panel → Panel)
    (hf : ∀ q, f (f q) = f q) :
    updatePanel (updatePanel m hd f) hd f = updatePanel m hd f := by
  cases hq : lookup m hd with
  | none =>
      rw [updatePanel_of_none hq, updatePanel_of_none hq]
  | some p =>
      have h2 : lookup (updatePanel m hd f) hd = some (f p) :=
        lookup_updatePanel_self hq f
      rw [updatePanel_of_some h2, updatePanel_of_some hq, List.set_set, hf]

/-- Visibility is untouched by an update whose function keeps it. -/
theorem visibleOf_updatePanel (m : Manager) (q hd : Nat) (f : Panel → Panel)
    (hf : ∀ r, (f r).visible = r.visible) :
    visibleOf (updatePanel m q f) hd = visibleOf m hd := by
  rcases Decidable.em (q = hd) with heq | hne
  · subst heq
    cases hq : lookup m q with
    | none => rw [updatePanel_of_none hq]
    | some r =>
        simp only [visibleOf, lookup_updatePanel_self hq f, hq, hf,
          Option.map_some', Option.getD_some]
  · rw [visibleOf, lookup_updatePanel_ne m hne f, ← visibleOf]

theorem run_cons (m : Manager) (op : Op) (l : List Op) :
    run m (op :: l) = run (step m op).1 l := rfl

/-- Iterating a call that fixes the state leaves the state fixed. -/
theorem run_replicate_fixed (s : Manager) (op : Op)
    (hfix : (step s op).1 = s) :
    ∀ n, run s (List.replicate n op) = s := by
  intro n
  induction n with
  | zero => rfl
  | succ n ih => rw [List.replicate_succ, run_cons, hfix, ih]

/-- A concrete one-panel manager used to instantiate the theorems. -/
def m0 : Manager := [some (createPanel 0 0 800 600)]

/-- C1: for a valid handle and a positive factor `f`, `wvpanel_set_zoom`
followed by `wvpanel_get_zoom`, with no intervening zoom-modifying call,
returns exactly `f` — no clamping or transformation of the zoom factor. -/
theorem set_zoom_get_zoom_roundtrip (m : Manager) (hd : Nat) (p : Panel)
    (f : Rat) (hval : lookup m hd = some p) (hf : 0 < f) :
    (step (step m (Op.wvpanel_set_zoom hd f)).1 (Op.wvpanel_get_zoom hd)).2
      = Output.zoom f := by
  simp [step, lookup_updatePanel_self hval]

/-- Witness for C1 at a concrete panel and factor. -/
theorem set_zoom_get_zoom_roundtrip_witness :
    (step (step m0 (Op.wvpanel_set_zoom 0 (3 / 2))).1
        (Op.wvpanel_get_zoom 0)).2 = Output.zoom (3 / 2) :=
  set_zoom_get_zoom_roundtrip m0 0 (createPanel 0 0 800 600) (3 / 2) rfl
    (by norm_num)

/-- C2: on a valid handle, `wvpanel_show` then `wvpanel_is_visible` reads
`true`; `wvpanel_hide` then `wvpanel_is_visible` reads `false`; and any
number of consecutive repetitions of `wvpanel_show` (resp. `wvpanel_hide`)
leaves the whole manager in the same state as a single call. -/
theorem show_hide_visible_idem (m : Manager) (hd : Nat) (p : Panel)
    (hval : lookup m hd = some p) :
    visibleOf (step m (Op.wvpanel_show hd)).1 hd = true ∧
    visibleOf (step m (Op.wvpanel_hide hd)).1 hd = false ∧
    (∀ n : Nat, run m (List.replicate (n + 1) (Op.wvpanel_show hd))
        = (step m (Op.wvpanel_show hd)).1) ∧
    (∀ n : Nat, run m (List.replicate (n + 1) (Op.wvpanel_hide hd))
        = (step m (Op.wvpanel_hide hd)).1) := by
  refine ⟨?_, ?_, ?_, ?_⟩
  · simp [visibleOf, step, lookup_updatePanel_self hval]
  · simp [visibleOf, step, lookup_updatePanel_self hval]
  · intro n
    rw [List.replicate_succ, run_cons]
    exact run_replicate_fixed (step m (Op.wvpanel_show hd)).1
      (Op.wvpanel_show hd)
      (updatePanel_idem m hd (fun q => { q with visible := true })
        fun q => rfl) n
  · intro n
    rw [List.replicate_succ, run_cons]
    exact run_replicate_fixed (step m (Op.wvpanel_hide hd)).1
      (Op.wvpanel_hide hd)
      (updatePanel_idem m hd (fun q => { q with visible := false })
        fun q => rfl) n

/-- Witness for C2 at a concrete panel, with three repetitions. -/
theorem show_hide_visible_idem_witness :
    visibleOf (step m0 (Op.wvpanel_show 0)).1 0 = true ∧
    visibleOf (step m0 (Op.wvpanel_hide 0)).1 0 = false ∧
    run m0 (List.replicate 3 (Op.wvpanel_show 0))
      = (step m0 (Op.wvpanel_show 0)).1 ∧
    run m0 (List.replicate 3 (Op.wvpanel_hide 0))
      = (step m0 (Op.wvpanel_hide 0)).1 := by
  have h := show_hide_visible_idem m0 0 (createPanel 0 0 800 600) rfl
  exact ⟨h.1, h.2.1, h.2.2.1 2, h.2.2.2 2⟩

/-- C7: `wvpanel_create` followed immediately by `wvpanel_is_visible` on
the fresh handle returns the one fixed default visibility state, whatever
the prior manager state and the requested geometry; and `wvpanel_destroy`
invalidates the handle (no panel resolves through it afterwards). -/
theorem create_default_visible_destroy_invalidates (m : Manager)
    (x y w h : Int) (hd : Nat) :
    (step (step m (Op.wvpanel_create true true x y w h)).1
        (Op.wvpanel_is_visible m.length)).2 = Output.bool defaultVisible ∧
    lookup (step m (Op.wvpanel_destroy hd)).1 hd = none := by
  constructor
  · simp [step, lookup_concat_length, createPanel]
  · exact lookup_set_none_self m hd

/-- Calls that write or drop the content source of handle `hd`. -/
def touchesContent (hd : Nat) : Op → Bool
  | .wvpanel_set_url p _ => decide (p = hd)
  | .wvpanel_set_html p _ => decide (p = hd)
  | .wvpanel_destroy p => decide (p = hd)
  | _ => false

theorem content_updatePanel_preserved {m : Manager} {hd : Nat} {p : Panel}
    (q : Nat) (f : Panel → Panel) (hval : lookup m hd = some p)
    (hf : ∀ r, (f r).content = r.content) :
    ∃ r, lookup (updatePanel m q f) hd = some r ∧ r.content = p.content := by
  rcases Decidable.em (q = hd) with heq | hne
  · subst heq
    exact ⟨f p, lookup_updatePanel_self hval f, hf p⟩
  · exact ⟨p, by rw [lookup_updatePanel_ne m hne f]; exact hval, rfl⟩

/-- One call that does not touch the content of `hd` keeps `hd` valid and
its content source unchanged. -/
theorem content_step_preserved {m : Manager} {hd : Nat} {p : Panel} {op : Op}
    (hval : lookup m hd = some p) (hop : touchesContent hd op = false) :
    ∃ q, lookup (step m op).1 hd = some q ∧ q.content = p.content := by
  cases op with
  | wvpanel_create hv ok x y w h =>
      cases hc : hv && ok with
      | false => exact ⟨p, by simp [step, hc]; exact hval, rfl⟩
      | true =>
          refine ⟨p, ?_, rfl⟩
          simp only [step, hc, if_true]
          rw [lookup_append_left (lookup_lt_length hval)]
          exact hval
  | wvpanel_destroy q =>
      have hne : q ≠ hd := of_decide_eq_false hop
      exact ⟨p, by rw [step]; rw [lookup_set_ne hne]; exact hval, rfl⟩
  | wvpanel_set_bounds q a b c d =>
      exact content_updatePanel_preserved q _ hval fun r => rfl
  | wvpanel_set_zindex q z =>
      exact content_updatePanel_preserved q _ hval fun r => rfl
  | wvpanel_set_url q u =>
      have hne : q ≠ hd := of_decide_eq_false hop
      have h : lookup (step m (Op.wvpanel_set_url q u)).1 hd = lookup m hd :=
        lookup_updatePanel_ne m hne
          (fun r => { r with content := some (Content.url u) })
      exact ⟨p, h.trans hval, rfl⟩
  | wvpanel_set_html q s =>
      have hne : q ≠ hd := of_decide_eq_false hop
      have h : lookup (step m (Op.wvpanel_set_html q s)).1 hd = lookup m hd :=
        lookup_updatePanel_ne m hne
          (fun r => { r with content := some (Content.html s) })
      exact ⟨p, h.trans hval, rfl⟩
  | wvpanel_eval_js q js => exact ⟨p, hval, rfl⟩
  | wvpanel_reload q => exact ⟨p, hval, rfl⟩
  | wvpanel_show q =>
      exact content_updatePanel_preserved q _ hval fun r => rfl
  | wvpanel_hide q =>
      exact content_updatePanel_preserved q _ hval fun r => rfl
  | wvpanel_is_visible q => exact ⟨p, hval, rfl⟩
  | wvpanel_set_zoom q f =>
      exact content_updatePanel_preserved q _ hval fun r => rfl
  | wvpanel_get_zoom q => exact ⟨p, hval, rfl⟩
  | wvpanel_focus q => exact ⟨p, hval, rfl⟩

/-- A whole run of calls that never touch the content of `hd` keeps `hd`
valid and its content source unchanged. -/
theorem content_run_preserved {l : List Op} :
    ∀ {m : Manager} {hd : Nat} {p : Panel}, lookup m hd = some p →
      (∀ op ∈ l, touchesContent hd op = false) →
      ∃ q, lookup (run m l) hd = some q ∧ q.content = p.content := by
  induction l with
  | nil => exact fun hval _ => ⟨_, hval, rfl⟩
  | cons op l ih =>
      intro m hd p hval hl
      rcases content_step_preserved hval (hl op (List.mem_cons_self op l))
        with ⟨q, hq, hc⟩
      rcases ih hq (fun o ho => hl o (List.mem_cons_of_mem op ho))
        with ⟨r, hr, hrc⟩
      exact ⟨r, by rw [run_cons]; exact hr, hrc.trans hc⟩

/-- C3: after `wvpanel_set_url` (resp. `wvpanel_set_html`) on a valid
handle, followed by any calls that do not write or drop that handle's
content, the active content source is exactly the address (resp. the
inline blob) of the last content-writing call; the `Option Content` field
makes "never both" structural. -/
theorem set_url_set_html_last_write_wins (m : Manager) (hd : Nat)
    (p : Panel) (u s : String) (l : List Op)
    (hval : lookup m hd = some p)
    (hl : ∀ op ∈ l, touchesContent hd op = false) :
    contentOf (run (step m (Op.wvpanel_set_url hd u)).1 l) hd
      = some (Content.url u) ∧
    contentOf (run (step m (Op.wvpanel_set_html hd s)).1 l) hd
      = some (Content.html s) := by
  constructor
  · have h1 : lookup (step m (Op.wvpanel_set_url hd u)).1 hd
        = some { p with content := some (Content.url u) } :=
      lookup_updatePanel_self hval _
    rcases content_run_preserved h1 hl with ⟨q, hq, hc⟩
    rw [contentOf, hq]
    simpa using hc
  · have h1 : lookup (step m (Op.wvpanel_set_html hd s)).1 hd
        = some { p with content := some (Content.html s) } :=
      lookup_updatePanel_self hval _
    rcases content_run_preserved h1 hl with ⟨q, hq, hc⟩
    rw [contentOf, hq]
    simpa using hc

/-- Witness for C3 with an intervening zoom call. -/
theorem set_url_set_html_last_write_wins_witness :
    contentOf (run (step m0 (Op.wvpanel_set_url 0 "a")).1
        [Op.wvpanel_set_zoom 0 2]) 0 = some (Content.url "a") ∧
    contentOf (run (step m0 (Op.wvpanel_set_html 0 "b")).1
        [Op.wvpanel_set_zoom 0 2]) 0 = some (Content.html "b") :=
  set_url_set_html_last_write_wins m0 0 (createPanel 0 0 800 600)
    "a" "b" [Op.wvpanel_set_zoom 0 2] rfl (by decide)

/-- C4: `wvpanel_create` returns the null handle exactly when the host
window reference is invalid or native allocation fails; that null return
is the only failure signal (the state is untouched, and `Output` has no
error constructor); on success it returns a fresh valid handle. -/
theorem create_failure_signalling (m : Manager) (hv ok : Bool)
    (x y w h : Int) :
    ((step m (Op.wvpanel_create hv ok x y w h)).2 = Output.handle none
        ↔ (hv = false ∨ ok = false)) ∧
    (hv = true → ok = true →
      (step m (Op.wvpanel_create hv ok x y w h)).2
          = Output.handle (some m.length) ∧
      lookup (step m (Op.wvpanel_create hv ok x y w h)).1 m.length
        = some (createPanel x y w h)) ∧
    ((hv = false ∨ ok = false) →
      (step m (Op.wvpanel_create hv ok x y w h)).1 = m) := by
  cases hv <;> cases ok <;> simp [step, lookup_concat_length]

/-- Witness for C4: a successful and a failing creation. -/
theorem create_failure_signalling_witness :
    (step ([] : Manager) (Op.wvpanel_create true true 0 0 800 600)).2
      = Output.handle (some 0) ∧
    (step ([] : Manager) (Op.wvpanel_create false true 0 0 800 600)).2
      = Output.handle none :=
  ⟨((create_failure_signalling [] true true 0 0 800 600).2.1 rfl rfl).1,
   (create_failure_signalling [] false true 0 0 800 600).1.mpr
     (Or.inl rfl)⟩

/-- C5: `wvpanel_set_bounds` stores exactly the given rectangle, with no
clamping, and a second call overwrites it with exactly the newer values
(last-write-wins). -/
theorem set_bounds_exact_last_write_wins (m : Manager) (hd : Nat)
    (p : Panel) (xa ya wa ha xb yb wb hb : Int)
    (hval : lookup m hd = some p) :
    boundsOf (step m (Op.wvpanel_set_bounds hd xa ya wa ha)).1 hd
      = some (xa, ya, wa, ha) ∧
    boundsOf (step (step m (Op.wvpanel_set_bounds hd xa ya wa ha)).1
        (Op.wvpanel_set_bounds hd xb yb wb hb)).1 hd
      = some (xb, yb, wb, hb) := by
  have h1 : lookup (step m (Op.wvpanel_set_bounds hd xa ya wa ha)).1 hd
      = some { p with x := xa, y := ya, w := wa, h := ha } :=
    lookup_updatePanel_self hval _
  have h2 : lookup (step (step m (Op.wvpanel_set_bounds hd xa ya wa ha)).1
      (Op.wvpanel_set_bounds hd xb yb wb hb)).1 hd
      = some { p with x := xb, y := yb, w := wb, h := hb } :=
    lookup_updatePanel_self h1
      (fun q => { q with x := xb, y := yb, w := wb, h := hb })
  exact ⟨by simp [boundsOf, h1], by simp [boundsOf, h2]⟩

/-- Witness for C5 at concrete rectangles, one exceeding the host window
extents and one with negative coordinates. -/
theorem set_bounds_exact_last_write_wins_witness :
    boundsOf (step m0 (Op.wvpanel_set_bounds 0 0 0 5000 5000)).1 0
      = some (0, 0, 5000, 5000) ∧
    boundsOf (step (step m0 (Op.wvpanel_set_bounds 0 0 0 5000 5000)).1
        (Op.wvpanel_set_bounds 0 (-10) (-20) 1 1)).1 0
      = some (-10, -20, 1, 1) :=
  set_bounds_exact_last_write_wins m0 0 (createPanel 0 0 800 600)
    0 0 5000 5000 (-10) (-20) 1 1 rfl

/-- Every valid handle resolves to a panel with a positive zoom factor. -/
def ZoomPos (m : Manager) : Prop :=
  ∀ hd p, lookup m hd = some p → 0 < p.zoom

/-- A call that only ever writes positive zoom factors. -/
def posZoomOp : Op → Bool
  | .wvpanel_set_zoom _ f => decide (0 < f)
  | _ => true

theorem zoomPos_updatePanel {m : Manager} (hm : ZoomPos m) (q : Nat)
    (f : Panel → Panel) (hf : ∀ r, (f r).zoom = r.zoom) :
    ZoomPos (updatePanel m q f) := by
  intro hd p hp
  rcases lookup_updatePanel_cases hp with h | ⟨r, hr, _, hpf⟩
  · exact hm hd p h
  · rw [hpf, hf]
    exact hm hd r hr

theorem zoomPos_step {m : Manager} {op : Op} (hm : ZoomPos m)
    (hop : posZoomOp op = true) : ZoomPos (step m op).1 := by
  cases op with
  | wvpanel_create hv ok x y w h =>
      intro hd p hp
      cases hc : hv && ok with
      | false =>
          simp only [step, hc, if_false, Bool.false_eq_true] at hp
          exact hm hd p hp
      | true =>
          simp only [step, hc, if_true] at hp
          rcases Nat.lt_trichotomy hd m.length with hlt | heq | hgt
          · rw [lookup_append_left hlt] at hp
            exact hm hd p hp
          · subst heq
            rw [lookup_concat_length] at hp
            rw [← Option.some.inj hp]
            exact one_pos
          · rw [lookup, List.getElem?_len_le (by simpa using hgt)] at hp
            exact Option.noConfusion hp
  | wvpanel_destroy q =>
      intro hd p hp
      rcases Decidable.em (q = hd) with heq | hne
      · subst heq
        rw [show (step m (Op.wvpanel_destroy q)).1 = List.set m q none
            from rfl, lookup_set_none_self] at hp
        exact Option.noConfusion hp
      · rw [show (step m (Op.wvpanel_destroy q)).1 = List.set m q none
            from rfl, lookup_set_ne hne] at hp
        exact hm hd p hp
  | wvpanel_set_bounds q a b c d => exact zoomPos_updatePanel hm q _ fun r => rfl
  | wvpanel_set_zindex q z => exact zoomPos_updatePanel hm q _ fun r => rfl
  | wvpanel_set_url q u => exact zoomPos_updatePanel hm q _ fun r => rfl
  | wvpanel_set_html q s => exact zoomPos_updatePanel hm q _ fun r => rfl
  | wvpanel_eval_js q js => exact hm
  | wvpanel_reload q => exact hm
  | wvpanel_show q => exact zoomPos_updatePanel hm q _ fun r => rfl
  | wvpanel_hide q => exact zoomPos_updatePanel hm q _ fun r => rfl
  | wvpanel_is_visible q => exact hm
  | wvpanel_set_zoom q f =>
      intro hd p hp
      have hf0 : 0 < f := of_decide_eq_true hop
      rcases lookup_updatePanel_cases hp with h | ⟨r, hr, _, hpf⟩
      · exact hm hd p h
      · rw [hpf]
        exact hf0
  | wvpanel_get_zoom q => exact hm
  | wvpanel_focus q => exact hm

theorem zoomPos_run {l : List Op} :
    ∀ {m : Manager}, ZoomPos m → (∀ op ∈ l, posZoomOp op = true) →
      ZoomPos (run m l) := by
  induction l with
  | nil => exact fun hm _ => hm
  | cons op l ih =>
      intro m hm hl
      rw [run_cons]
      exact ih (zoomPos_step hm (hl op (List.mem_cons_self op l)))
        (fun o ho => hl o (List.mem_cons_of_mem op ho))

/-- C6: a freshly created panel reads back zoom factor exactly 1.0 before
any `wvpanel_set_zoom`, and under the spec's typing discipline (callers
write only positive factors) every panel's zoom factor stays a positive
rational throughout any run. -/
theorem zoom_default_one_and_positive (m : Manager) (x y w h : Int)
    (l : List Op) (hm : ZoomPos m)
    (hl : ∀ op ∈ l, posZoomOp op = true) :
    (step (step m (Op.wvpanel_create true true x y w h)).1
        (Op.wvpanel_get_zoom m.length)).2 = Output.zoom 1 ∧
    ZoomPos (run m l) := by
  constructor
  · simp [step, lookup_concat_length, createPanel]
  · exact zoomPos_run hm hl

/-- Witness for C6: empty manager, a creation and a positive zoom write. -/
theorem zoom_default_one_and_positive_witness :
    (step (step ([] : Manager) (Op.wvpanel_create true true 0 0 800 600)).1
        (Op.wvpanel_get_zoom 0)).2 = Output.zoom 1 ∧
    ZoomPos (run ([] : Manager)
      [Op.wvpanel_create true true 0 0 1 1, Op.wvpanel_set_zoom 0 2]) :=
  zoom_default_one_and_positive [] 0 0 800 600
    [Op.wvpanel_create true true 0 0 1 1, Op.wvpanel_set_zoom 0 2]
    (fun hd p hp => by simp [lookup] at hp) (by decide)

/-- C8: `wvpanel_hide` then `wvpanel_show` on a valid handle leaves the
panel exactly as before up to the visibility flag: bounding rectangle,
z-index, displayed content and zoom factor are untouched, and only the
visibility flag ends up set. -/
theorem hide_show_retains_attributes (m : Manager) (hd : Nat) (p : Panel)
    (hval : lookup m hd = some p) :
    lookup (step (step m (Op.wvpanel_hide hd)).1 (Op.wvpanel_show hd)).1 hd
      = some { p with visible := true } := by
  have h1 : lookup (step m (Op.wvpanel_hide hd)).1 hd
      = some { p with visible := false } :=
    lookup_updatePanel_self hval _
  exact lookup_updatePanel_self h1 (fun q => { q with visible := true })

/-- Witness for C8 at a concrete panel. -/
theorem hide_show_retains_attributes_witness :
    lookup (step (step m0 (Op.wvpanel_hide 0)).1 (Op.wvpanel_show 0)).1 0
      = some { createPanel 0 0 800 600 with visible := true } :=
  hide_show_retains_attributes m0 0 (createPanel 0 0 800 600) rfl

/-- Calls that may change a visibility flag: only show, hide, destroy. -/
def changesVisibility : Op → Bool
  | .wvpanel_show _ => true
  | .wvpanel_hide _ => true
  | .wvpanel_destroy _ => true
  | _ => false

/-- C9: every call other than `wvpanel_show`, `wvpanel_hide` and
`wvpanel_destroy` — in particular `wvpanel_set_bounds`,
`wvpanel_set_zindex`, `wvpanel_set_url`, `wvpanel_set_html`,
`wvpanel_eval_js`, `wvpanel_reload`, `wvpanel_set_zoom` and
`wvpanel_focus` — leaves what `wvpanel_is_visible` reads for a valid
handle unchanged. -/
theorem frame_visibility (m : Manager) (op : Op) (hd : Nat) (p : Panel)
    (hval : lookup m hd = some p) (hop : changesVisibility op = false) :
    visibleOf (step m op).1 hd = visibleOf m hd := by
  cases op with
  | wvpanel_create hv ok x y w h =>
      cases hc : hv && ok with
      | false => simp [step, hc]
      | true =>
          simp only [step, hc, if_true, visibleOf]
          rw [lookup_append_left (lookup_lt_length hval)]
  | wvpanel_destroy q => simp [changesVisibility] at hop
  | wvpanel_set_bounds q a b c d =>
      exact visibleOf_updatePanel m q hd _ fun r => rfl
  | wvpanel_set_zindex q z =>
      exact visibleOf_updatePanel m q hd _ fun r => rfl
  | wvpanel_set_url q u =>
      exact visibleOf_updatePanel m q hd _ fun r => rfl
  | wvpanel_set_html q s =>
      exact visibleOf_updatePanel m q hd _ fun r => rfl
  | wvpanel_eval_js q js => rfl
  | wvpanel_reload q => rfl
  | wvpanel_show q => simp [changesVisibility] at hop
  | wvpanel_hide q => simp [changesVisibility] at hop
  | wvpanel_is_visible q => rfl
  | wvpanel_set_zoom q f =>
      exact visibleOf_updatePanel m q hd _ fun r => rfl
  | wvpanel_get_zoom q => rfl
  | wvpanel_focus q => rfl

/-- Witness for C9: a bounds change does not disturb visibility. -/
theorem frame_visibility_witness :
    visibleOf (step m0 (Op.wvpanel_set_bounds 0 9 9 9 9)).1 0
      = visibleOf m0 0 :=
  frame_visibility m0 (Op.wvpanel_set_bounds 0 9 9 9 9) 0
    (createPanel 0 0 800 600) rfl rfl

/-- C10: `wvpanel_is_visible` and `wvpanel_get_zoom` are pure observers:
each leaves the whole manager state (every attribute of every panel)
unchanged, and two consecutive calls with no intervening mutating
operation return the same value. -/
theorem observers_pure (m : Manager) (hd : Nat) :
    (step m (Op.wvpanel_is_visible hd)).1 = m ∧
    (step m (Op.wvpanel_get_zoom hd)).1 = m ∧
    (step (step m (Op.wvpanel_is_visible hd)).1 (Op.wvpanel_is_visible hd)).2
      = (step m (Op.wvpanel_is_visible hd)).2 ∧
    (step (step m (Op.wvpanel_get_zoom hd)).1 (Op.wvpanel_get_zoom hd)).2
      = (step m (Op.wvpanel_get_zoom hd)).2 :=
  ⟨rfl, rfl, rfl, rfl⟩

end Webviewpanel
